import Mathlib

/-
A shallow embedding of the question-selection engine and quiz-session state
machine of the telegram trivia bot (source files
`services/question_selector.py`, `services/quiz_service.py`,
`models/quiz_question.py`).

Modelling conventions:
* Python floats are modelled as exact rationals (`ℚ`); all float constants
  appearing in the source (0.1, 0.3, 0.6, 0.8, 0.01, 0.5) are short binary or
  decimal fractions and every comparison relevant to a claim is exact.
* `random.choice(l)` / `random.choices(l, weights)[0]` on a non-empty list are
  modelled by an explicit choice oracle `k : Nat`, picking `l[k % l.length]`.
  Properties are proved for every oracle value, covering every possible draw.
* Python `set` and `dict` are modelled with their iteration order made
  explicit: a `set` of indices is an insertion-ordered duplicate-free
  `List Nat`, a `dict` is either an insertion-ordered association list
  (`List (key × value)`) or, when only lookups are observable, a total
  function with the `defaultdict` default for absent keys.
* `math.log` (used only to build the weight table) is abstracted as a
  function parameter `logf : ℚ → ℚ`; no claim depends on its values.
* Exceptions: the source's selection operations are total (they return `None`
  rather than raise), which the embedding reflects by returning `Option`.
-/

set_option linter.unusedVariables false

/-- `models/quiz_question.py`: dataclass `QuizQuestion`. -/
structure QuizQuestion where
  question : String
  options : List String
  correct_answer : Int
  explanation : Option String
  difficulty : String
  category : String
deriving DecidableEq, Repr

instance : Inhabited QuizQuestion :=
  ⟨⟨"", [], 0, none, "medium", "general"⟩⟩

/-- Choice oracle: `random.choice(l)` on a non-empty list returns `l[k % len(l)]`
for the oracle value `k`. -/
def pickD {α : Type} [Inhabited α] (l : List α) (k : Nat) : α :=
  l.getD (k % l.length) default

/-- Python `list(xs)[-n:]`: the last `n` elements (all of them if fewer). -/
def takeLast {α : Type} (n : Nat) (l : List α) : List α :=
  l.drop (l.length - n)

/-- Python `set.add`: append if not already present (insertion order kept). -/
def setAdd (l : List Nat) (x : Nat) : List Nat :=
  if x ∈ l then l else l ++ [x]

/-- First-occurrence-ordered list of keys, as Python dict insertion order
produces when grouping (`available_by_category` keys). -/
def keysInOrder (l : List String) : List String :=
  l.foldl (fun acc c => if c ∈ acc then acc else acc ++ [c]) []

/-- State of `QuestionSelector` (`services/question_selector.py`).
`question_weights` is a float dict read only via `.get(i, 1.0)`, so it is a
partial map; `global_question_usage` is a `defaultdict(int)` read only via
`[i]` (default 0) and re-keyed wholesale, so it is a total function;
`user_question_history` is a dict of sets of indices, absent key ≡ empty. -/
structure QuestionSelector where
  questions : List QuizQuestion
  question_weights : Nat → Option ℚ
  user_question_history : Int → List Nat
  global_question_usage : Nat → Nat

/-- `_analyze_categories`: category → indices with that category (ascending). -/
def analyzeCategories (qs : List QuizQuestion) : String → List Nat := fun c =>
  (qs.enum.filter (fun p => p.2.category = c)).map (·.1)

/-- `_analyze_difficulties`: difficulty → indices with that difficulty. -/
def analyzeDifficulties (qs : List QuizQuestion) : String → List Nat := fun d =>
  (qs.enum.filter (fun p => p.2.difficulty = d)).map (·.1)

/-- `_initialize_weights`: weight of index `i` in pool `qs`, where `logf`
abstracts `math.log`. The source writes
`weight * category_weight * difficulty_weight` with `weight = 1.0` and
`category_weight = log(total/category_size + 1)` when the category bucket is
non-empty (it always is for the question's own category), else `1.0`. -/
def initWeightAt (logf : ℚ → ℚ) (qs : List QuizQuestion) (i : Nat) : ℚ :=
  let total : ℚ := qs.length
  let q := qs.getD i default
  let category_size := (analyzeCategories qs q.category).length
  let category_weight := if category_size > 0 then logf (total / category_size + 1) else 1
  let difficulty_size := (analyzeDifficulties qs q.difficulty).length
  let difficulty_weight := if difficulty_size > 0 then logf (total / difficulty_size + 1) else 1
  1 * category_weight * difficulty_weight

/-- `_initialize_weights` writes `question_weights[i]` for every `i < len`;
stale entries beyond the current pool length are left in the dict, exactly as
in the source. -/
def initWeights (logf : ℚ → ℚ) (qs : List QuizQuestion) (prev : Nat → Option ℚ) :
    Nat → Option ℚ := fun i =>
  if qs.length = 0 then prev i
  else if i < qs.length then some (initWeightAt logf qs i) else prev i

/-- `available_indices = [i for i in range(len(self.questions)) if i not in used_questions]`.
`used` is the caller-supplied set of already-used indices (as ints: the
session may record `-1` for a question not found by `list.index`). -/
def availableIndices (qs : List QuizQuestion) (used : List Int) : List Nat :=
  (List.range qs.length).filter (fun i => ¬((i : Int) ∈ used))

/-- Python truthiness of an `Optional[int]`: `None` and `0` are falsy. -/
def truthyUser (user_id : Option Int) : Bool :=
  match user_id with
  | none => false
  | some u => u ≠ 0

/-- The candidate list of `select_question_weighted_random` after the
recency filter (lines 82-90): if a truthy `user_id` has a tracked history of
more than 20 indices, drop that user's last-20 from the candidates unless
that would empty them. (`list(user_history)[-20:]`, with set iteration order
modelled as insertion order.) -/
def weightedCandidates (s : QuestionSelector) (used : List Int)
    (user_id : Option Int) : List Nat :=
  let available := availableIndices s.questions used
  match user_id with
  | none => available
  | some uid =>
    if uid ≠ 0 ∧ s.user_question_history uid ≠ [] then
      let user_history := s.user_question_history uid
      if user_history.length > 20 then
        let recent_questions := takeLast 20 user_history
        let filtered := available.filter (fun i => ¬(i ∈ recent_questions))
        if filtered ≠ [] then filtered else available
      else available
    else available

/-- The weight list of `select_question_weighted_random` (lines 92-106):
`max(base_weight * usage_penalty * user_penalty, 0.01)` per candidate, where
`base_weight = question_weights.get(i, 1.0)`,
`usage_penalty = 1/(1 + usage*0.1)` and `user_penalty = 0.3` when a truthy
user has index `i` in their history, else `1.0`. -/
def weightedWeights (s : QuestionSelector) (user_id : Option Int)
    (candidates : List Nat) : List ℚ :=
  candidates.map (fun i =>
    let base_weight := (s.question_weights i).getD 1
    let usage_penalty : ℚ := 1 / (1 + (s.global_question_usage i : ℚ) * (1/10))
    let user_penalty : ℚ :=
      match user_id with
      | none => 1
      | some uid => if uid ≠ 0 ∧ i ∈ s.user_question_history uid then 3/10 else 1
    max (base_weight * usage_penalty * user_penalty) (1/100))

/-- Index chosen by `select_question_weighted_random`. All weights are
positive, so `random.choices` can return any candidate: the draw is the
oracle pick among the candidates. -/
def weightedRandomIndex (s : QuestionSelector) (used : List Int)
    (user_id : Option Int) (k : Nat) : Option Nat :=
  let available := availableIndices s.questions used
  if available = [] then none
  else
    let candidates := weightedCandidates s used user_id
    some (pickD candidates k)

/-- `select_question_weighted_random` (lines 72-121): returns the question at
the chosen index, incrementing its global usage and (for a truthy user)
recording it in the user's history. -/
def select_question_weighted_random (s : QuestionSelector) (used : List Int)
    (user_id : Option Int) (k : Nat) : QuestionSelector × Option QuizQuestion :=
  match weightedRandomIndex s used user_id k with
  | none => (s, none)
  | some selected =>
    let s₁ := { s with
      global_question_usage := fun i =>
        if i = selected then s.global_question_usage i + 1 else s.global_question_usage i
      user_question_history := fun u =>
        match user_id with
        | none => s.user_question_history u
        | some uid =>
          if uid ≠ 0 ∧ u = uid then setAdd (s.user_question_history u) selected
          else s.user_question_history u }
    (s₁, some (s.questions.getD selected default))

/-- Python truthiness of an `Optional[str]`: `None` and `""` are falsy. -/
def truthyStr (t : Option String) : Bool :=
  match t with
  | none => false
  | some c => c ≠ ""

/-- Index chosen by `select_question_balanced_categories` (lines 123-170).
`k₁` resolves the random choice of index in the target-category branch and of
the category in the balanced branch; `k₂` the choice of index in the balanced
branch. -/
def balancedCategoriesIndex (s : QuestionSelector) (used : List Int)
    (target_category : Option String) (k₁ k₂ : Nat) : Option Nat :=
  let available := availableIndices s.questions used
  if available = [] then none
  else
    let fromTarget : Option Nat :=
      match target_category with
      | none => none
      | some tc =>
        if tc ≠ "" ∧ analyzeCategories s.questions tc ≠ [] then
          let category_indices := (analyzeCategories s.questions tc).filter (· ∈ available)
          if category_indices ≠ [] then some (pickD category_indices k₁) else none
        else none
    match fromTarget with
    | some i => some i
    | none =>
      let availableByCategory := fun c =>
        available.filter (fun i => (s.questions.getD i default).category = c)
      let available_categories := keysInOrder (available.map (fun i => (s.questions.getD i default).category))
      let category_usage := fun c =>
        (used.filter (fun i => 0 ≤ i ∧ i < (s.questions.length : Int) ∧
          (s.questions.getD i.toNat default).category = c)).length
      let min_usage := ((available_categories.map category_usage).min?).getD 0
      let candidate_categories := available_categories.filter (fun c => category_usage c = min_usage)
      let selected_category := pickD candidate_categories k₁
      some (pickD (availableByCategory selected_category) k₂)

/-- `select_question_balanced_categories`: side effect is the global usage
increment only (no per-user tracking in this mode). -/
def select_question_balanced_categories (s : QuestionSelector) (used : List Int)
    (target_category : Option String) (k₁ k₂ : Nat) :
    QuestionSelector × Option QuizQuestion :=
  match balancedCategoriesIndex s used target_category k₁ k₂ with
  | none => (s, none)
  | some selected =>
    ({ s with global_question_usage := fun i =>
        if i = selected then s.global_question_usage i + 1 else s.global_question_usage i },
      some (s.questions.getD selected default))

/-- Target difficulty of `select_question_difficulty_progression`
(lines 183-191): `progress = question_number / total_questions` when
`total_questions > 0`, else 0; first 30% easy, next 40% medium, rest hard. -/
def progressionTarget (question_number total_questions : Int) : String :=
  let progress : ℚ :=
    if total_questions > 0 then (question_number : ℚ) / (total_questions : ℚ) else 0
  if progress ≤ 3/10 then "easy"
  else if progress ≤ 7/10 then "medium"
  else "hard"

/-- Index chosen by `select_question_difficulty_progression` (lines 172-207):
a random unused question of the target difficulty, falling back to any
unused question when none match. -/
def difficultyProgressionIndex (s : QuestionSelector) (used : List Int)
    (question_number total_questions : Int) (k : Nat) : Option Nat :=
  let available := availableIndices s.questions used
  if available = [] then none
  else
    let target_difficulty := progressionTarget question_number total_questions
    let target_indices := available.filter
      (fun i => (s.questions.getD i default).difficulty = target_difficulty)
    if target_indices ≠ [] then some (pickD target_indices k)
    else some (pickD available k)

/-- `select_question_difficulty_progression`: global usage increment. -/
def select_question_difficulty_progression (s : QuestionSelector) (used : List Int)
    (question_number total_questions : Int) (k : Nat) :
    QuestionSelector × Option QuizQuestion :=
  match difficultyProgressionIndex s used question_number total_questions k with
  | none => (s, none)
  | some selected =>
    ({ s with global_question_usage := fun i =>
        if i = selected then s.global_question_usage i + 1 else s.global_question_usage i },
      some (s.questions.getD selected default))

/-- Target difficulty of `select_question_adaptive` (lines 220-238):
accuracies default to 0.5 via `dict.get`; `kcoin` resolves
`random.choice(["medium", "hard"])` in the performing-well branch. -/
def adaptiveTargetDifficulty (user_performance : String → Option ℚ) (kcoin : Nat) : String :=
  let easy_accuracy := (user_performance "easy").getD (1/2)
  let medium_accuracy := (user_performance "medium").getD (1/2)
  let hard_accuracy := (user_performance "hard").getD (1/2)
  if easy_accuracy < 3/5 then "easy"
  else if medium_accuracy < 3/5 then "medium"
  else if hard_accuracy < 4/5 then "hard"
  else pickD ["medium", "hard"] kcoin

/-- Index chosen by `select_question_adaptive` (lines 209-267): filter to the
target difficulty (falling back to all available when empty), then drop the
user's last-15 seen indices when their history exceeds 15 entries and the
filter leaves something, then an oracle pick. Note the history-filter guard
is `user_id in self.user_question_history` (key presence, no truthiness). -/
def adaptiveCandidates (s : QuestionSelector) (used : List Int) (user_id : Int)
    (user_performance : String → Option ℚ) (kcoin : Nat) : List Nat :=
  let available := availableIndices s.questions used
  let target_difficulty := adaptiveTargetDifficulty user_performance kcoin
  let target_indices₀ := available.filter
    (fun i => (s.questions.getD i default).difficulty = target_difficulty)
  let target_indices₁ := if target_indices₀ = [] then available else target_indices₀
  if s.user_question_history user_id ≠ [] then
    let user_history := s.user_question_history user_id
    if user_history.length > 15 then
      let recent_questions := takeLast 15 user_history
      let filtered := target_indices₁.filter (fun i => ¬(i ∈ recent_questions))
      if filtered ≠ [] then filtered else target_indices₁
    else target_indices₁
  else target_indices₁

def adaptiveIndex (s : QuestionSelector) (used : List Int) (user_id : Int)
    (user_performance : String → Option ℚ) (kcoin k : Nat) : Option Nat :=
  let available := availableIndices s.questions used
  if available = [] then none
  else some (pickD (adaptiveCandidates s used user_id user_performance kcoin) k)

/-- `select_question_adaptive`: increments global usage; adds to the user's
history only for a truthy (non-zero) `user_id`. -/
def select_question_adaptive (s : QuestionSelector) (used : List Int) (user_id : Int)
    (user_performance : String → Option ℚ) (kcoin k : Nat) :
    QuestionSelector × Option QuizQuestion :=
  match adaptiveIndex s used user_id user_performance kcoin k with
  | none => (s, none)
  | some selected =>
    let s₁ := { s with
      global_question_usage := fun i =>
        if i = selected then s.global_question_usage i + 1 else s.global_question_usage i
      user_question_history := fun u =>
        if user_id ≠ 0 ∧ u = user_id then setAdd (s.user_question_history u) selected
        else s.user_question_history u }
    (s₁, some (s.questions.getD selected default))

/-- Index chosen by `select_question_simple_random` (lines 269-281). -/
def simpleRandomIndex (s : QuestionSelector) (used : List Int) (k : Nat) : Option Nat :=
  let available := availableIndices s.questions used
  if available = [] then none
  else some (pickD available k)

/-- `select_question_simple_random`: uniform pick, global usage increment. -/
def select_question_simple_random (s : QuestionSelector) (used : List Int) (k : Nat) :
    QuestionSelector × Option QuizQuestion :=
  match simpleRandomIndex s used k with
  | none => (s, none)
  | some selected =>
    ({ s with global_question_usage := fun i =>
        if i = selected then s.global_question_usage i + 1 else s.global_question_usage i },
      some (s.questions.getD selected default))

/-- The five strategies of the string-keyed dispatch table. -/
inductive Strategy where
  | weighted_random
  | balanced_categories
  | difficulty_progression
  | adaptive
  | simple_random
deriving DecidableEq, Repr

/-- `get_selection_function` (lines 283-295):
`strategies.get(strategy, self.select_question_weighted_random)` — unknown
names resolve to the weighted-random selection function. -/
def get_selection_function (strategy : String) : Strategy :=
  if strategy = "weighted_random" then .weighted_random
  else if strategy = "balanced_categories" then .balanced_categories
  else if strategy = "difficulty_progression" then .difficulty_progression
  else if strategy = "adaptive" then .adaptive
  else if strategy = "simple_random" then .simple_random
  else .weighted_random

/-- `_update_indices_after_removal` (lines 370-392): re-key the global usage
dict (`idx < removed` kept, `idx > removed` shifted down, `idx = removed`
dropped) and every user's history set likewise. -/
def update_indices_after_removal (s : QuestionSelector) (removed_index : Nat) :
    QuestionSelector :=
  { s with
    global_question_usage := fun i =>
      if i < removed_index then s.global_question_usage i
      else s.global_question_usage (i + 1)
    user_question_history := fun u =>
      ((s.user_question_history u).filter (fun idx => idx ≠ removed_index)).map
        (fun idx => if idx < removed_index then idx else idx - 1) }

/-- `remove_question` (lines 351-368): in range → pop the question, re-key
tracking, recompute distributions (derived on demand from `questions` in this
embedding) and the weight table, return success; out of range → no change,
failure. -/
def remove_question (logf : ℚ → ℚ) (s : QuestionSelector) (question_index : Int) :
    QuestionSelector × Bool :=
  if 0 ≤ question_index ∧ question_index < (s.questions.length : Int) then
    let r := question_index.toNat
    let qs' := s.questions.eraseIdx r
    let s₁ := update_indices_after_removal { s with questions := qs' } r
    ({ s₁ with question_weights := initWeights logf qs' s.question_weights }, true)
  else (s, false)

/-- Per-session participant record (`quiz_data['participants'][user_id]`). -/
structure Participant where
  username : String
  score : Nat
  answers : Nat
deriving DecidableEq, Repr

/-- One active quiz session (`services/quiz_service.py`, the per-chat dict
built in `start_quiz`). Timestamps are abstract integers. -/
structure QuizData where
  current_question : QuizQuestion
  question_count : Int
  max_questions : Int
  participants : List (Int × Participant)
  start_time : Int
  used_questions : List Int
  poll_id : Option String
  poll_message_id : Option Int
  initiator_user_id : Int
  language : String
deriving DecidableEq, Repr

/-- State of `QuizService`: the selector, the chat-id-keyed session dict
(insertion-ordered association list), the long-lived per-user performance
tracker (`defaultdict`, absent ≡ `[]`) and the process-wide strategy name. -/
structure QuizService where
  question_selector : QuestionSelector
  active_quizzes : List (Int × QuizData)
  user_performance_tracking : Int → String → List Bool
  selection_strategy : String

/-- Dict lookup on an insertion-ordered association list. -/
def alookup {β : Type} (l : List (Int × β)) (key : Int) : Option β :=
  (l.find? (fun p => decide (p.1 = key))).map (·.2)

/-- Dict value update in place (insertion order preserved). -/
def aset {β : Type} (l : List (Int × β)) (key : Int) (v : β) : List (Int × β) :=
  l.map (fun p => if p.1 = key then (key, v) else p)

/-- `calculate_user_performance` (lines 268-281): a dict with exactly the keys
easy/medium/hard; accuracy = correct/total over the tracked list, defaulting
to 0.5 when the list is empty. `sum` of booleans is the count of `True`. -/
def calculate_user_performance (svc : QuizService) (user_id : Int) :
    String → Option ℚ := fun d =>
  if d = "easy" ∨ d = "medium" ∨ d = "hard" then
    let l := svc.user_performance_tracking user_id d
    if l ≠ [] then some ((l.count true : ℚ) / (l.length : ℚ)) else some (1/2)
  else none

/-- `if len(list) > 20: keep the last 20` (lines 260-263). -/
def trim20 (l : List Bool) : List Bool :=
  if l.length > 20 then takeLast 20 l else l

/-- `update_user_performance` (lines 254-266): append the correctness boolean
to the user's list for the question's difficulty, then trim every difficulty
list of that user to its last 20 entries (trimming is the identity on lists
of ≤ 20 entries and on absent keys). -/
def update_user_performance (tracking : Int → String → List Bool) (user_id : Int)
    (q : QuizQuestion) (is_correct : Bool) : Int → String → List Bool :=
  fun u d =>
    if u = user_id then
      trim20 (if d = q.difficulty then tracking u d ++ [is_correct] else tracking u d)
    else tracking u d

/-- `_get_question_index` (lines 247-252): `list.index` finds the first equal
question; a `ValueError` (question absent) resolves to `-1`. -/
def get_question_index (svc : QuizService) (q : QuizQuestion) : Int :=
  match (svc.question_selector.questions.enum.find? (fun p => decide (p.2 = q))).map (·.1) with
  | some i => (i : Int)
  | none => -1

/-- `_select_next_question` (lines 215-245). Oracle values `kcoin k₁ k₂`
resolve the random draws of whichever strategy runs. The `else` branch calls
the dispatched function with positional arguments `(used_questions, user_id)`;
for strategies whose second positional parameter is not a user id this
faithfully reproduces the source's argument passing:
* `balanced_categories` receives the int `user_id` as `target_category`; an
  int is never truthy-and-a-member of the str-keyed category dict, so the
  target branch never fires — modelled as target `none`;
* `difficulty_progression` on a first draw receives `user_id` as
  `question_number` with `total_questions` defaulting to 10;
* `simple_random` accepts no second positional argument: the call raises
  `TypeError`, caught by the surrounding `except` — the draw yields `None`
  with no state change;
* the `adaptive` arm in the `else` branch is unreachable (the string guard
  above handles it); were it reached, the arity mismatch would likewise
  resolve to `None`. -/
def select_next_question (svc : QuizService) (chat_id user_id : Int)
    (is_first : Bool) (kcoin k₁ k₂ : Nat) : QuizService × Option QuizQuestion :=
  if ¬is_first ∧ (alookup svc.active_quizzes chat_id).isNone then (svc, none)
  else
    let used : List Int :=
      if is_first then []
      else match alookup svc.active_quizzes chat_id with
           | some d => d.used_questions
           | none => []
    if svc.selection_strategy = "adaptive" then
      let user_performance := calculate_user_performance svc user_id
      let res := select_question_adaptive svc.question_selector used user_id
        user_performance kcoin k₁
      ({ svc with question_selector := res.1 }, res.2)
    else if svc.selection_strategy = "difficulty_progression" ∧ ¬is_first then
      let question_count := match alookup svc.active_quizzes chat_id with
        | some d => d.question_count
        | none => 1
      let max_questions := match alookup svc.active_quizzes chat_id with
        | some d => d.max_questions
        | none => 10
      let res := select_question_difficulty_progression svc.question_selector used
        question_count max_questions k₁
      ({ svc with question_selector := res.1 }, res.2)
    else
      match get_selection_function svc.selection_strategy with
      | .weighted_random =>
        let res := select_question_weighted_random svc.question_selector used
          (some user_id) k₁
        ({ svc with question_selector := res.1 }, res.2)
      | .balanced_categories =>
        let res := select_question_balanced_categories svc.question_selector used
          none k₁ k₂
        ({ svc with question_selector := res.1 }, res.2)
      | .difficulty_progression =>
        let res := select_question_difficulty_progression svc.question_selector used
          user_id 10 k₁
        ({ svc with question_selector := res.1 }, res.2)
      | .adaptive => (svc, none)
      | .simple_random => (svc, none)

/-- `start_quiz` (lines 28-61): a chat with an active session is rejected
before any state is touched; otherwise question #1 is drawn with an empty
used-set and the fresh session dict is stored. `username` is accepted but
unused, as in the source. -/
def start_quiz (svc : QuizService) (chat_id user_id : Int) (username : String)
    (max_questions : Int) (now : Int) (kcoin k₁ k₂ : Nat) :
    QuizService × Option QuizQuestion :=
  if (alookup svc.active_quizzes chat_id).isSome then (svc, none)
  else
    let drawn := select_next_question svc chat_id user_id true kcoin k₁ k₂
    match drawn with
    | (svc₁, none) => (svc₁, none)
    | (svc₁, some first_question) =>
      let data : QuizData :=
        { current_question := first_question
          question_count := 1
          max_questions := max_questions
          participants := []
          start_time := now
          used_questions := [get_question_index svc₁ first_question]
          poll_id := none
          poll_message_id := none
          initiator_user_id := user_id
          language := "ro" }
      ({ svc₁ with active_quizzes := svc₁.active_quizzes ++ [(chat_id, data)] },
        some first_question)

/-- Outcome dict returned by `process_poll_answer`. -/
structure AnswerOutcome where
  chat_id : Int
  user_id : Int
  is_correct : Bool
  question : QuizQuestion
  participant_data : Participant
deriving DecidableEq, Repr

/-- Lines 98-102: the first active session whose `poll_id` equals the event's
poll id (dict iteration in insertion order, `break` on first match). -/
def findPollChat (svc : QuizService) (poll_id : String) : Option (Int × QuizData) :=
  svc.active_quizzes.find? (fun p => decide (p.2.poll_id = some poll_id))

/-- `process_poll_answer` (lines 90-145). The guard on line 104 is
`if not chat_id or not quiz_data`: a matched session stored under the falsy
chat id `0` is rejected exactly like "no match". An empty `selected_options`
short-circuits `is_correct` to a falsy value, modelled as `false`. -/
def process_poll_answer (svc : QuizService) (poll_id : String) (user_id : Int)
    (username : String) (selected_options : List Int) :
    QuizService × Option AnswerOutcome :=
  match findPollChat svc poll_id with
  | none => (svc, none)
  | some (chat_id, quiz_data) =>
    if chat_id = 0 then (svc, none)
    else
      let current_question := quiz_data.current_question
      let is_correct : Bool :=
        match selected_options with
        | [] => false
        | o :: _ => decide (o = current_question.correct_answer)
      let base := (alookup quiz_data.participants user_id).getD ⟨username, 0, 0⟩
      let participant : Participant :=
        { username := username
          score := base.score + (if is_correct then 1 else 0)
          answers := base.answers + 1 }
      let participants₁ :=
        if (alookup quiz_data.participants user_id).isSome then quiz_data.participants
        else quiz_data.participants ++ [(user_id, (⟨username, 0, 0⟩ : Participant))]
      let quiz_data' := { quiz_data with participants := aset participants₁ user_id participant }
      let svc₁ := { svc with
        active_quizzes := aset svc.active_quizzes chat_id quiz_data'
        user_performance_tracking :=
          update_user_performance svc.user_performance_tracking user_id
            current_question is_correct }
      (svc₁, some { chat_id := chat_id, user_id := user_id, is_correct := is_correct,
                    question := current_question, participant_data := participant })

/-- Stable insertion step for the descending-score sort: an earlier element
`x` is placed before the first later element whose score it meets or beats,
so equal scores keep their original (arrival) order. -/
def insertDesc (x : Int × Participant) : List (Int × Participant) → List (Int × Participant)
  | [] => [x]
  | y :: ys => if y.2.score ≤ x.2.score then x :: y :: ys else y :: insertDesc x ys

/-- `sorted(participants.items(), key=score, reverse=True)`: Python's sort is
stable, and any stable sort for the descending-score preorder yields the same
list; modelled as stable insertion sort. -/
def sortDescByScore : List (Int × Participant) → List (Int × Participant)
  | [] => []
  | x :: xs => insertDesc x (sortDescByScore xs)

/-- Results dict of `get_quiz_results`; the zero-participant branch returns a
dict carrying only `participants` and `total_participants`, modelled by the
three remaining fields being `none`. -/
structure QuizResults where
  participants : List (Int × Participant)
  total_participants : Nat
  total_questions : Option Int
  start_time : Option Int
  duration : Option Int
deriving DecidableEq, Repr

/-- `get_quiz_results` (lines 180-213): `None` without a session; a session
with no participants yields the empty results dict; otherwise participants
sorted by descending score (stable), counts, `question_count - 1`, start time
and elapsed duration (`now` abstracts `datetime.now()`). -/
def get_quiz_results (svc : QuizService) (chat_id : Int) (now : Int) :
    Option QuizResults :=
  match alookup svc.active_quizzes chat_id with
  | none => none
  | some quiz_data =>
    if quiz_data.participants = [] then
      some { participants := [], total_participants := 0,
             total_questions := none, start_time := none, duration := none }
    else
      some { participants := sortDescByScore quiz_data.participants
             total_participants := quiz_data.participants.length
             total_questions := some (quiz_data.question_count - 1)
             start_time := some quiz_data.start_time
             duration := some (now - quiz_data.start_time) }

section Helpers

/-- An oracle pick from a non-empty list is a member of the list. -/
theorem pickD_mem {α : Type} [Inhabited α] {l : List α} (h : l ≠ []) (k : Nat) :
    pickD l k ∈ l := by
  have hlen : 0 < l.length := List.length_pos.mpr h
  have hk : k % l.length < l.length := Nat.mod_lt _ hlen
  have : pickD l k = l.get ⟨k % l.length, hk⟩ := by
    simp [pickD, List.getD_eq_getElem?_getD, List.getElem?_eq_getElem hk]
  rw [this]
  exact List.get_mem l _ hk

theorem mem_availableIndices {qs : List QuizQuestion} {used : List Int} {i : Nat} :
    i ∈ availableIndices qs used ↔ i < qs.length ∧ ¬((i : Int) ∈ used) := by
  simp [availableIndices, List.mem_filter]

theorem availableIndices_eq_nil {qs : List QuizQuestion} {used : List Int} :
    availableIndices qs used = [] ↔ ∀ i, i < qs.length → (i : Int) ∈ used := by
  constructor
  · intro h i hi
    by_contra hmem
    have : i ∈ availableIndices qs used := mem_availableIndices.mpr ⟨hi, hmem⟩
    simp [h] at this
  · intro h
    apply List.eq_nil_iff_forall_not_mem.mpr
    intro i hi
    rcases mem_availableIndices.mp hi with ⟨h1, h2⟩
    exact h2 (h i h1)

theorem weightedCandidates_subset {s : QuestionSelector} {used : List Int}
    {user_id : Option Int} {i : Nat} (h : i ∈ weightedCandidates s used user_id) :
    i ∈ availableIndices s.questions used := by
  unfold weightedCandidates at h
  rcases user_id with _ | uid
  · exact h
  · simp only at h
    split at h
    · split at h
      · split at h
        · exact List.mem_filter.mp h |>.1
        · exact h
      · exact h
    · exact h

theorem weightedCandidates_ne_nil {s : QuestionSelector} {used : List Int}
    {user_id : Option Int} (h : availableIndices s.questions used ≠ []) :
    weightedCandidates s used user_id ≠ [] := by
  unfold weightedCandidates
  rcases user_id with _ | uid
  · exact h
  · simp only
    split
    · split
      · split
        · assumption
        · exact h
      · exact h
    · exact h

theorem nat_min_eq_or (a b : Nat) : min a b = a ∨ min a b = b := by
  rw [Nat.min_def]; split <;> simp

theorem mem_keysInOrder {l : List String} {c : String} :
    c ∈ keysInOrder l ↔ c ∈ l := by
  have general : ∀ (l : List String) (acc : List String),
      c ∈ l.foldl (fun acc c => if c ∈ acc then acc else acc ++ [c]) acc ↔
        c ∈ acc ∨ c ∈ l := by
    intro l
    induction l with
    | nil => intro acc; simp
    | cons x xs ih =>
      intro acc
      simp only [List.foldl_cons, ih, List.mem_cons]
      by_cases hx : x ∈ acc
      · simp only [if_pos hx]
        constructor
        · tauto
        · rintro (h | rfl | h) <;> tauto
      · simp only [if_neg hx, List.mem_append, List.mem_singleton]
        tauto
  simpa [keysInOrder] using general l []

theorem keysInOrder_ne_nil {l : List String} (h : l ≠ []) : keysInOrder l ≠ [] := by
  rcases List.exists_mem_of_ne_nil l h with ⟨x, hx⟩
  intro hnil
  have : x ∈ keysInOrder l := mem_keysInOrder.mpr hx
  simp [hnil] at this

/-- The least value of `usage` over a non-empty key list is attained, so
filtering the keys down to the minimum-usage ones leaves something. -/
theorem min_usage_filter_ne_nil (usage : String → Nat) (cats : List String)
    (h : cats ≠ []) :
    cats.filter (fun c => usage c = ((cats.map usage).min?).getD 0) ≠ [] := by
  have hmapne : cats.map usage ≠ [] := by simpa using h
  cases hmin : (cats.map usage).min? with
  | none =>
    rw [List.min?_eq_none_iff] at hmin
    exact absurd hmin hmapne
  | some m =>
    have hmmem : m ∈ cats.map usage := List.min?_mem nat_min_eq_or hmin
    rcases List.mem_map.mp hmmem with ⟨c0, hc0mem, hc0⟩
    simp only [hmin, Option.getD_some]
    intro hnil
    have : c0 ∈ cats.filter (fun c => usage c = m) :=
      List.mem_filter.mpr ⟨hc0mem, by simp [hc0]⟩
    simp [hnil] at this

/-- Picking a group key from a list of keys drawn from `avail.map f` and then
picking an element of `avail` carrying that key stays inside `avail`. -/
theorem pickD_grouped_mem {β : Type} [Inhabited β] [DecidableEq β]
    (f : Nat → β) (avail : List Nat) (cands : List β) (hcne : cands ≠ [])
    (hc : ∀ c ∈ cands, c ∈ avail.map f) (k₁ k₂ : Nat) :
    pickD (avail.filter (fun i => f i = pickD cands k₁)) k₂ ∈ avail := by
  have hsel : pickD cands k₁ ∈ cands := pickD_mem hcne k₁
  rcases List.mem_map.mp (hc _ hsel) with ⟨i0, hi0mem, hi0⟩
  have hne : avail.filter (fun i => f i = pickD cands k₁) ≠ [] := by
    intro hnil
    have : i0 ∈ avail.filter (fun i => f i = pickD cands k₁) :=
      List.mem_filter.mpr ⟨hi0mem, by simp [hi0]⟩
    simp [hnil] at this
  exact (List.mem_filter.mp (pickD_mem hne k₂)).1

end Helpers

section CoreLemmas

theorem weightedRandomIndex_none {s : QuestionSelector} {used : List Int}
    {user_id : Option Int} {k : Nat}
    (h : availableIndices s.questions used = []) :
    weightedRandomIndex s used user_id k = none := by
  simp [weightedRandomIndex, h]

theorem weightedRandomIndex_mem {s : QuestionSelector} {used : List Int}
    {user_id : Option Int} {k : Nat}
    (h : availableIndices s.questions used ≠ []) :
    ∃ i, weightedRandomIndex s used user_id k = some i ∧
      i ∈ availableIndices s.questions used := by
  refine ⟨pickD (weightedCandidates s used user_id) k, ?_, ?_⟩
  · simp [weightedRandomIndex, h]
  · exact weightedCandidates_subset (pickD_mem (weightedCandidates_ne_nil h) k)

theorem balancedCategoriesIndex_none {s : QuestionSelector} {used : List Int}
    {target : Option String} {k₁ k₂ : Nat}
    (h : availableIndices s.questions used = []) :
    balancedCategoriesIndex s used target k₁ k₂ = none := by
  simp [balancedCategoriesIndex, h]

theorem balancedCategoriesIndex_mem {s : QuestionSelector} {used : List Int}
    {target : Option String} {k₁ k₂ : Nat}
    (h : availableIndices s.questions used ≠ []) :
    ∃ i, balancedCategoriesIndex s used target k₁ k₂ = some i ∧
      i ∈ availableIndices s.questions used := by
  unfold balancedCategoriesIndex
  rw [if_neg h]
  simp only
  split
  · next i heq =>
    refine ⟨i, rfl, ?_⟩
    rcases target with _ | tc
    · simp at heq
    · simp only at heq
      split at heq
      · split at heq
        · next hne =>
          injection heq with heq
          subst heq
          simpa using (List.mem_filter.mp (pickD_mem hne k₁)).2
        · simp at heq
      · simp at heq
  · next heq =>
    -- balanced branch: pick the least-used category among the available ones
    refine ⟨_, rfl, ?_⟩
    have hcats : keysInOrder ((availableIndices s.questions used).map
        (fun i => (s.questions.getD i default).category)) ≠ [] :=
      keysInOrder_ne_nil (by simpa using h)
    exact pickD_grouped_mem (fun i => (s.questions.getD i default).category)
      (availableIndices s.questions used) _
      (min_usage_filter_ne_nil _ _ hcats)
      (fun c hcmem => mem_keysInOrder.mp (List.mem_filter.mp hcmem).1) k₁ k₂

theorem difficultyProgressionIndex_none {s : QuestionSelector} {used : List Int}
    {qn tot : Int} {k : Nat}
    (h : availableIndices s.questions used = []) :
    difficultyProgressionIndex s used qn tot k = none := by
  simp [difficultyProgressionIndex, h]

theorem difficultyProgressionIndex_mem {s : QuestionSelector} {used : List Int}
    {qn tot : Int} {k : Nat}
    (h : availableIndices s.questions used ≠ []) :
    ∃ i, difficultyProgressionIndex s used qn tot k = some i ∧
      i ∈ availableIndices s.questions used := by
  unfold difficultyProgressionIndex
  rw [if_neg h]
  simp only
  split
  · next hne =>
    exact ⟨_, rfl, (List.mem_filter.mp (pickD_mem hne k)).1⟩
  · exact ⟨_, rfl, pickD_mem h k⟩

theorem adaptiveIndex_none {s : QuestionSelector} {used : List Int}
    {uid : Int} {perf : String → Option ℚ} {kcoin k : Nat}
    (h : availableIndices s.questions used = []) :
    adaptiveIndex s used uid perf kcoin k = none := by
  simp [adaptiveIndex, h]

theorem adaptiveIndex_mem {s : QuestionSelector} {used : List Int}
    {uid : Int} {perf : String → Option ℚ} {kcoin k : Nat}
    (h : availableIndices s.questions used ≠ []) :
    ∃ i, adaptiveIndex s used uid perf kcoin k = some i ∧
      i ∈ availableIndices s.questions used := by
  unfold adaptiveIndex
  rw [if_neg h]
  refine ⟨_, rfl, ?_⟩
  have hsub : ∀ i ∈ adaptiveCandidates s used uid perf kcoin,
      i ∈ availableIndices s.questions used := by
    intro i hi
    unfold adaptiveCandidates at hi
    simp only at hi
    repeat' split at hi
    all_goals first
      | exact hi
      | exact (List.mem_filter.mp hi).1
      | exact (List.mem_filter.mp (List.mem_filter.mp hi).1).1
  have hne : adaptiveCandidates s used uid perf kcoin ≠ [] := by
    unfold adaptiveCandidates
    simp only
    repeat' split
    all_goals first
      | exact h
      | assumption
  exact hsub _ (pickD_mem hne k)

theorem simpleRandomIndex_none {s : QuestionSelector} {used : List Int} {k : Nat}
    (h : availableIndices s.questions used = []) :
    simpleRandomIndex s used k = none := by
  simp [simpleRandomIndex, h]

theorem simpleRandomIndex_mem {s : QuestionSelector} {used : List Int} {k : Nat}
    (h : availableIndices s.questions used ≠ []) :
    ∃ i, simpleRandomIndex s used k = some i ∧
      i ∈ availableIndices s.questions used := by
  refine ⟨pickD (availableIndices s.questions used) k, ?_, pickD_mem h k⟩
  simp [simpleRandomIndex, h]

end CoreLemmas

/-- Sample pool used by concrete witnesses. -/
def sampleQuestions : List QuizQuestion :=
  [⟨"q0", ["a", "b"], 0, none, "easy", "geo"⟩,
   ⟨"q1", ["a", "b"], 1, none, "medium", "hist"⟩,
   ⟨"q2", ["a", "b"], 0, none, "hard", "geo"⟩]

/-- Sample selector state used by concrete witnesses. -/
def sampleSelector : QuestionSelector :=
  { questions := sampleQuestions
    question_weights := fun _ => some 1
    user_question_history := fun _ => []
    global_question_usage := fun _ => 0 }

/-- C1: shared selection contract. For every pool, used-set, user/target/
performance context and every possible random draw, each of the five
selection operations returns `none` when `usedIndices` covers every pool
index, and otherwise returns the question at some pool index outside
`usedIndices`. All five operations are total functions of the state (no
exception escapes the selector boundary). -/
theorem C1_shared_selection_contract (s : QuestionSelector) (used : List Int)
    (user_id : Option Int) (uid : Int) (target : Option String)
    (qn tot : Int) (perf : String → Option ℚ)
    (kcoin kw kb₁ kb₂ kd ka ks : Nat) :
    ((∀ i, i < s.questions.length → (i : Int) ∈ used) →
      select_question_weighted_random s used user_id kw = (s, none) ∧
      select_question_balanced_categories s used target kb₁ kb₂ = (s, none) ∧
      select_question_difficulty_progression s used qn tot kd = (s, none) ∧
      select_question_adaptive s used uid perf kcoin ka = (s, none) ∧
      select_question_simple_random s used ks = (s, none)) ∧
    ((∃ i, i < s.questions.length ∧ ¬((i : Int) ∈ used)) →
      (∃ i, i < s.questions.length ∧ ¬((i : Int) ∈ used) ∧
        (select_question_weighted_random s used user_id kw).2 =
          some (s.questions.getD i default)) ∧
      (∃ i, i < s.questions.length ∧ ¬((i : Int) ∈ used) ∧
        (select_question_balanced_categories s used target kb₁ kb₂).2 =
          some (s.questions.getD i default)) ∧
      (∃ i, i < s.questions.length ∧ ¬((i : Int) ∈ used) ∧
        (select_question_difficulty_progression s used qn tot kd).2 =
          some (s.questions.getD i default)) ∧
      (∃ i, i < s.questions.length ∧ ¬((i : Int) ∈ used) ∧
        (select_question_adaptive s used uid perf kcoin ka).2 =
          some (s.questions.getD i default)) ∧
      (∃ i, i < s.questions.length ∧ ¬((i : Int) ∈ used) ∧
        (select_question_simple_random s used ks).2 =
          some (s.questions.getD i default))) := by
  constructor
  · intro hex
    have hnil : availableIndices s.questions used = [] :=
      availableIndices_eq_nil.mpr hex
    refine ⟨?_, ?_, ?_, ?_, ?_⟩
    · simp [select_question_weighted_random, weightedRandomIndex_none hnil]
    · simp [select_question_balanced_categories, balancedCategoriesIndex_none hnil]
    · simp [select_question_difficulty_progression, difficultyProgressionIndex_none hnil]
    · simp [select_question_adaptive, adaptiveIndex_none hnil]
    · simp [select_question_simple_random, simpleRandomIndex_none hnil]
  · rintro ⟨i0, hi0, hu0⟩
    have hne : availableIndices s.questions used ≠ [] := by
      intro hnil
      exact hu0 (availableIndices_eq_nil.mp hnil i0 hi0)
    refine ⟨?_, ?_, ?_, ?_, ?_⟩
    · rcases @weightedRandomIndex_mem s used user_id kw hne with ⟨i, heq, hmem⟩
      rcases mem_availableIndices.mp hmem with ⟨h1, h2⟩
      exact ⟨i, h1, h2, by simp [select_question_weighted_random, heq]⟩
    · rcases @balancedCategoriesIndex_mem s used target kb₁ kb₂ hne with ⟨i, heq, hmem⟩
      rcases mem_availableIndices.mp hmem with ⟨h1, h2⟩
      exact ⟨i, h1, h2, by simp [select_question_balanced_categories, heq]⟩
    · rcases @difficultyProgressionIndex_mem s used qn tot kd hne with ⟨i, heq, hmem⟩
      rcases mem_availableIndices.mp hmem with ⟨h1, h2⟩
      exact ⟨i, h1, h2, by simp [select_question_difficulty_progression, heq]⟩
    · rcases @adaptiveIndex_mem s used uid perf kcoin ka hne with ⟨i, heq, hmem⟩
      rcases mem_availableIndices.mp hmem with ⟨h1, h2⟩
      exact ⟨i, h1, h2, by simp [select_question_adaptive, heq]⟩
    · rcases @simpleRandomIndex_mem s used ks hne with ⟨i, heq, hmem⟩
      rcases mem_availableIndices.mp hmem with ⟨h1, h2⟩
      exact ⟨i, h1, h2, by simp [select_question_simple_random, heq]⟩

/-- Witness for C1 at a concrete pool: the exhausted used-set `[0,1,2]` and
the partial used-set `[0]`. -/
theorem C1_shared_selection_contract_witness :
    (select_question_weighted_random sampleSelector [0, 1, 2] none 0 =
        (sampleSelector, none) ∧
      select_question_balanced_categories sampleSelector [0, 1, 2] none 0 0 =
        (sampleSelector, none) ∧
      select_question_difficulty_progression sampleSelector [0, 1, 2] 1 10 0 =
        (sampleSelector, none) ∧
      select_question_adaptive sampleSelector [0, 1, 2] 7 (fun _ => none) 0 0 =
        (sampleSelector, none) ∧
      select_question_simple_random sampleSelector [0, 1, 2] 0 =
        (sampleSelector, none)) ∧
    ((∃ i, i < sampleSelector.questions.length ∧ ¬((i : Int) ∈ [(0 : Int)]) ∧
        (select_question_weighted_random sampleSelector [0] none 0).2 =
          some (sampleSelector.questions.getD i default)) ∧
      (∃ i, i < sampleSelector.questions.length ∧ ¬((i : Int) ∈ [(0 : Int)]) ∧
        (select_question_balanced_categories sampleSelector [0] none 0 0).2 =
          some (sampleSelector.questions.getD i default)) ∧
      (∃ i, i < sampleSelector.questions.length ∧ ¬((i : Int) ∈ [(0 : Int)]) ∧
        (select_question_difficulty_progression sampleSelector [0] 1 10 0).2 =
          some (sampleSelector.questions.getD i default)) ∧
      (∃ i, i < sampleSelector.questions.length ∧ ¬((i : Int) ∈ [(0 : Int)]) ∧
        (select_question_adaptive sampleSelector [0] 7 (fun _ => none) 0 0).2 =
          some (sampleSelector.questions.getD i default)) ∧
      (∃ i, i < sampleSelector.questions.length ∧ ¬((i : Int) ∈ [(0 : Int)]) ∧
        (select_question_simple_random sampleSelector [0] 0).2 =
          some (sampleSelector.questions.getD i default))) := by
  constructor
  · exact (C1_shared_selection_contract sampleSelector [0, 1, 2] none 7 none 1 10
      (fun _ => none) 0 0 0 0 0 0 0).1 (by decide)
  · exact (C1_shared_selection_contract sampleSelector [0] none 7 none 1 10
      (fun _ => none) 0 0 0 0 0 0 0).2 ⟨1, by decide, by decide⟩

/-- C7 counterexample: `"uniform"` is not one of the five strategy names, and
the dispatch resolves it to the weighted-random selection function, not the
simple-random one that the claim names as the fallback. -/
theorem C7_unknown_strategy_counterexample :
    get_selection_function "uniform" ≠ Strategy.simple_random ∧
    get_selection_function "uniform" = Strategy.weighted_random := by
  decide

/-- C7 (amended): when an unrecognized strategy name is requested from the
strategy dispatch, the selection function used is the weighted-random
strategy (`select_question_weighted_random`), the default of
`strategies.get`. -/
theorem C7_unknown_strategy_falls_back_to_weighted (strategy : String)
    (h : strategy ∉ ["weighted_random", "balanced_categories",
      "difficulty_progression", "adaptive", "simple_random"]) :
    get_selection_function strategy = Strategy.weighted_random := by
  simp only [List.mem_cons, List.not_mem_nil, or_false, not_or] at h
  obtain ⟨h1, h2, h3, h4, h5⟩ := h
  simp [get_selection_function, h1, h2, h3, h4, h5]

/-- Witness for the amended C7 at the concrete unknown name `"uniform"`. -/
theorem C7_unknown_strategy_falls_back_to_weighted_witness :
    "uniform" ∉ ["weighted_random", "balanced_categories",
      "difficulty_progression", "adaptive", "simple_random"] ∧
    get_selection_function "uniform" = Strategy.weighted_random :=
  ⟨by decide, C7_unknown_strategy_falls_back_to_weighted "uniform" (by decide)⟩

/-- C4: the adaptive target difficulty follows the accuracy thresholds of
lines 226-238 — easy below 0.6 easy-accuracy, else medium below 0.6
medium-accuracy, else hard below 0.8 hard-accuracy, else a coin flip between
medium and hard — and with all accuracies 0.9 the target is in
{medium, hard} and never easy, for every coin. -/
theorem C4_adaptive_target_difficulty (perf : String → Option ℚ) (kcoin : Nat) :
    ((perf "easy").getD (1/2) < 3/5 →
      adaptiveTargetDifficulty perf kcoin = "easy") ∧
    (¬((perf "easy").getD (1/2) < 3/5) → (perf "medium").getD (1/2) < 3/5 →
      adaptiveTargetDifficulty perf kcoin = "medium") ∧
    (¬((perf "easy").getD (1/2) < 3/5) → ¬((perf "medium").getD (1/2) < 3/5) →
      (perf "hard").getD (1/2) < 4/5 →
      adaptiveTargetDifficulty perf kcoin = "hard") ∧
    (¬((perf "easy").getD (1/2) < 3/5) → ¬((perf "medium").getD (1/2) < 3/5) →
      ¬((perf "hard").getD (1/2) < 4/5) →
      adaptiveTargetDifficulty perf kcoin ∈ (["medium", "hard"] : List String)) ∧
    ((perf "easy").getD (1/2) = 9/10 → (perf "medium").getD (1/2) = 9/10 →
      (perf "hard").getD (1/2) = 9/10 →
      adaptiveTargetDifficulty perf kcoin ∈ (["medium", "hard"] : List String) ∧
      adaptiveTargetDifficulty perf kcoin ≠ "easy") := by
  have hpick : pickD (["medium", "hard"] : List String) kcoin ∈
      (["medium", "hard"] : List String) := pickD_mem (by decide) kcoin
  refine ⟨?_, ?_, ?_, ?_, ?_⟩
  · intro h1
    simp only [adaptiveTargetDifficulty]
    rw [if_pos h1]
  · intro h1 h2
    simp only [adaptiveTargetDifficulty]
    rw [if_neg h1, if_pos h2]
  · intro h1 h2 h3
    simp only [adaptiveTargetDifficulty]
    rw [if_neg h1, if_neg h2, if_pos h3]
  · intro h1 h2 h3
    simp only [adaptiveTargetDifficulty]
    rw [if_neg h1, if_neg h2, if_neg h3]
    exact hpick
  · intro he hm hh
    have h1 : ¬((perf "easy").getD (1/2) < 3/5) := by rw [he]; norm_num
    have h2 : ¬((perf "medium").getD (1/2) < 3/5) := by rw [hm]; norm_num
    have h3 : ¬((perf "hard").getD (1/2) < 4/5) := by rw [hh]; norm_num
    have hmem : adaptiveTargetDifficulty perf kcoin ∈ (["medium", "hard"] : List String) := by
      simp only [adaptiveTargetDifficulty]
      rw [if_neg h1, if_neg h2, if_neg h3]
      exact hpick
    refine ⟨hmem, ?_⟩
    intro heasy
    rw [heasy] at hmem
    simp at hmem

/-- The all-0.9 performance map of C4's concrete scenario. -/
def perfAllNine : String → Option ℚ := fun d =>
  if d = "easy" ∨ d = "medium" ∨ d = "hard" then some (9/10) else none

/-- Witness for C4 at the concrete performance {easy 0.9, medium 0.9,
hard 0.9}, both coin values. -/
theorem C4_adaptive_target_difficulty_witness :
    ((perfAllNine "easy").getD (1/2) = 9/10 ∧
      (perfAllNine "medium").getD (1/2) = 9/10 ∧
      (perfAllNine "hard").getD (1/2) = 9/10) ∧
    (adaptiveTargetDifficulty perfAllNine 0 ∈ (["medium", "hard"] : List String) ∧
      adaptiveTargetDifficulty perfAllNine 0 ≠ "easy") ∧
    (adaptiveTargetDifficulty perfAllNine 1 ∈ (["medium", "hard"] : List String) ∧
      adaptiveTargetDifficulty perfAllNine 1 ≠ "easy") := by
  refine ⟨⟨by norm_num [perfAllNine], by norm_num [perfAllNine], by norm_num [perfAllNine]⟩, ?_, ?_⟩
  · exact (C4_adaptive_target_difficulty perfAllNine 0).2.2.2.2
      (by norm_num [perfAllNine]) (by norm_num [perfAllNine]) (by norm_num [perfAllNine])
  · exact (C4_adaptive_target_difficulty perfAllNine 1).2.2.2.2
      (by norm_num [perfAllNine]) (by norm_num [perfAllNine]) (by norm_num [perfAllNine])

/-- C5: the progression strategy maps session progress to a band — the first
30% targets easy, the next 40% medium, the final 30% hard (so for
total = 10, question 1 targets easy, question 5 medium, question 10 hard) —
and picks a random unused question of the target difficulty, falling back to
any unused question only when none of that difficulty remain. -/
theorem C5_difficulty_progression (s : QuestionSelector) (used : List Int)
    (qn tot : Int) (k : Nat) :
    progressionTarget 1 10 = "easy" ∧
    progressionTarget 5 10 = "medium" ∧
    progressionTarget 10 10 = "hard" ∧
    (tot > 0 →
      ((qn : ℚ) / (tot : ℚ) ≤ 3/10 → progressionTarget qn tot = "easy") ∧
      (3/10 < (qn : ℚ) / (tot : ℚ) → (qn : ℚ) / (tot : ℚ) ≤ 7/10 →
        progressionTarget qn tot = "medium") ∧
      (7/10 < (qn : ℚ) / (tot : ℚ) → progressionTarget qn tot = "hard")) ∧
    (availableIndices s.questions used ≠ [] →
      ∃ i, difficultyProgressionIndex s used qn tot k = some i ∧
        i ∈ availableIndices s.questions used ∧
        ((∃ j ∈ availableIndices s.questions used,
            (s.questions.getD j default).difficulty = progressionTarget qn tot) →
          (s.questions.getD i default).difficulty = progressionTarget qn tot)) := by
  refine ⟨by norm_num [progressionTarget], by norm_num [progressionTarget],
    by norm_num [progressionTarget], ?_, ?_⟩
  · intro htot
    refine ⟨?_, ?_, ?_⟩
    · intro hle
      simp only [progressionTarget]
      rw [if_pos htot, if_pos hle]
    · intro hgt hle
      simp only [progressionTarget]
      rw [if_pos htot, if_neg (not_le.mpr hgt), if_pos hle]
    · intro hgt
      simp only [progressionTarget]
      rw [if_pos htot, if_neg (not_le.mpr (lt_trans (by norm_num) hgt)),
        if_neg (not_le.mpr hgt)]
  · intro hne
    unfold difficultyProgressionIndex
    rw [if_neg hne]
    simp only
    split
    · next htne =>
      have hmem := pickD_mem htne k
      rcases List.mem_filter.mp hmem with ⟨h1, h2⟩
      exact ⟨_, rfl, h1, fun _ => by simpa using h2⟩
    · next hteq =>
      refine ⟨_, rfl, pickD_mem hne k, ?_⟩
      rintro ⟨j, hj, hdj⟩
      rw [not_not] at hteq
      have hjf : j ∈ (availableIndices s.questions used).filter
          (fun i => (s.questions.getD i default).difficulty = progressionTarget qn tot) :=
        List.mem_filter.mpr ⟨hj, by simpa using hdj⟩
      rw [hteq] at hjf
      simp at hjf

/-- Witness for C5: the sample pool at question 1 of 10 with nothing used;
the pool has an easy question, so the implications fire concretely. -/
theorem C5_difficulty_progression_witness :
    progressionTarget 1 10 = "easy" ∧
    ((1 : ℚ) / (10 : ℚ) ≤ 3/10 → progressionTarget 1 10 = "easy") ∧
    (∃ i, difficultyProgressionIndex sampleSelector [] 1 10 0 = some i ∧
      i ∈ availableIndices sampleSelector.questions [] ∧
      ((∃ j ∈ availableIndices sampleSelector.questions [],
          (sampleSelector.questions.getD j default).difficulty = progressionTarget 1 10) →
        (sampleSelector.questions.getD i default).difficulty = progressionTarget 1 10)) := by
  obtain ⟨h1, _, _, h4, h5⟩ := C5_difficulty_progression sampleSelector [] 1 10 0
  exact ⟨h1, (h4 (by norm_num)).1, h5 (by decide)⟩

/-- C2: `remove_question` succeeds exactly for `0 ≤ index < pool size`.
On success the question is removed, the global usage counter keeps indices
below the removed one and shifts every higher index down by one (the removed
entry is dropped), every per-user history contains `j` afterwards exactly
when it contained an unremoved `j < removed` or `j + 1 > removed` before
(so no entry references the stale index), and the weight table (and, in this
embedding, the derived category/difficulty maps, computed on demand from the
pool) are recomputed from the post-removal pool. Out of range: `(s, false)`
with no change. -/
theorem C2_remove_question_reindexes (logf : ℚ → ℚ) (s : QuestionSelector)
    (question_index : Int) :
    ((0 ≤ question_index ∧ question_index < (s.questions.length : Int)) →
      ∃ s', remove_question logf s question_index = (s', true) ∧
        s'.questions = s.questions.eraseIdx question_index.toNat ∧
        (∀ j, j < question_index.toNat →
          s'.global_question_usage j = s.global_question_usage j) ∧
        (∀ j, question_index.toNat ≤ j →
          s'.global_question_usage j = s.global_question_usage (j + 1)) ∧
        (∀ u j, j ∈ s'.user_question_history u ↔
          ((j ∈ s.user_question_history u ∧ j < question_index.toNat) ∨
            (j + 1 ∈ s.user_question_history u ∧ question_index.toNat ≤ j))) ∧
        analyzeCategories s'.questions =
          analyzeCategories (s.questions.eraseIdx question_index.toNat) ∧
        analyzeDifficulties s'.questions =
          analyzeDifficulties (s.questions.eraseIdx question_index.toNat) ∧
        s'.question_weights =
          initWeights logf (s.questions.eraseIdx question_index.toNat)
            s.question_weights) ∧
    (¬(0 ≤ question_index ∧ question_index < (s.questions.length : Int)) →
      remove_question logf s question_index = (s, false)) := by
  constructor
  · intro hin
    unfold remove_question
    rw [if_pos hin]
    refine ⟨_, rfl, ?_, ?_, ?_, ?_, rfl, rfl, rfl⟩
    · simp [update_indices_after_removal]
    · intro j hj
      show (if j < question_index.toNat then s.global_question_usage j
        else s.global_question_usage (j + 1)) = s.global_question_usage j
      rw [if_pos hj]
    · intro j hj
      show (if j < question_index.toNat then s.global_question_usage j
        else s.global_question_usage (j + 1)) = s.global_question_usage (j + 1)
      rw [if_neg (Nat.not_lt.mpr hj)]
    · intro u j
      simp only [update_indices_after_removal, List.mem_map, List.mem_filter,
        decide_eq_true_eq]
      constructor
      · rintro ⟨x, ⟨hx, hxr⟩, hshift⟩
        by_cases hlt : x < question_index.toNat
        · rw [if_pos hlt] at hshift
          exact Or.inl ⟨hshift ▸ hx, hshift ▸ hlt⟩
        · rw [if_neg hlt] at hshift
          refine Or.inr ⟨?_, by omega⟩
          have : x = j + 1 := by omega
          exact this ▸ hx
      · rintro (⟨hj, hlt⟩ | ⟨hj1, hge⟩)
        · exact ⟨j, ⟨hj, by omega⟩, by rw [if_pos hlt]⟩
        · refine ⟨j + 1, ⟨hj1, by omega⟩, ?_⟩
          rw [if_neg (by omega)]
          omega
  · intro hout
    unfold remove_question
    rw [if_neg hout]

/-- Selector state with live usage and history, for the C2 witness. -/
def removalSelector : QuestionSelector :=
  { questions := sampleQuestions
    question_weights := fun _ => some 1
    user_question_history := fun u => if u = 7 then [0, 1, 2] else []
    global_question_usage := fun i => i + 10 }

/-- Witness for C2: removal at the in-range index 1 and at the out-of-range
index 5 of a three-question pool. -/
theorem C2_remove_question_reindexes_witness :
    (∃ s', remove_question (fun x => x) removalSelector 1 = (s', true) ∧
      s'.questions = removalSelector.questions.eraseIdx (1 : Int).toNat ∧
      (∀ j, j < (1 : Int).toNat →
        s'.global_question_usage j = removalSelector.global_question_usage j) ∧
      (∀ j, (1 : Int).toNat ≤ j →
        s'.global_question_usage j = removalSelector.global_question_usage (j + 1)) ∧
      (∀ u j, j ∈ s'.user_question_history u ↔
        ((j ∈ removalSelector.user_question_history u ∧ j < (1 : Int).toNat) ∨
          (j + 1 ∈ removalSelector.user_question_history u ∧ (1 : Int).toNat ≤ j))) ∧
      analyzeCategories s'.questions =
        analyzeCategories (removalSelector.questions.eraseIdx (1 : Int).toNat) ∧
      analyzeDifficulties s'.questions =
        analyzeDifficulties (removalSelector.questions.eraseIdx (1 : Int).toNat) ∧
      s'.question_weights =
        initWeights (fun x => x) (removalSelector.questions.eraseIdx (1 : Int).toNat)
          removalSelector.question_weights) ∧
    remove_question (fun x => x) removalSelector 5 = (removalSelector, false) :=
  ⟨(C2_remove_question_reindexes (fun x => x) removalSelector 1).1 (by decide),
    (C2_remove_question_reindexes (fun x => x) removalSelector 5).2 (by decide)⟩

/-- Selector in which the falsy user id 0 has seen question 0. -/
def zeroUserSelector : QuestionSelector :=
  { questions := sampleQuestions
    question_weights := fun _ => some 1
    user_question_history := fun u => if u = 0 then [0] else []
    global_question_usage := fun _ => 0 }

/-- C3 counterexample: with requesting user id 0 — which `if user_id and ...`
treats as falsy — candidate 0 is in that user's history, yet its computed
weight is 1 (no repeat penalty), not the claimed
`max(base × decay × 0.3, 0.01) = 3/10`. -/
theorem C3_weighted_zero_user_counterexample :
    (0 : Nat) ∈ zeroUserSelector.user_question_history 0 ∧
    weightedCandidates zeroUserSelector [1, 2] (some 0) = [0] ∧
    weightedWeights zeroUserSelector (some 0)
      (weightedCandidates zeroUserSelector [1, 2] (some 0)) = [1] ∧
    (1 : ℚ) ≠ max ((1 : ℚ) * (1 / (1 + 0 * (1/10))) * (3/10)) (1/100) := by
  refine ⟨by simp [zeroUserSelector], by rfl, ?_, by norm_num⟩
  show weightedWeights zeroUserSelector (some 0) [0] = [1]
  norm_num [weightedWeights, zeroUserSelector, max_def]

/-- C3 (amended): for a provided non-zero requesting user id, every
candidate's sampling weight is the base rarity weight times the usage-decay
factor `1/(1+0.1×usage)` times a 0.3 repeat penalty when that user has seen
the index (else 1.0), floored at the positive minimum 0.01 (so all weights
are positive); and when that user's history exceeds 20 entries, the last-20
recency exclusion applies only when it leaves at least one candidate, never
emptying the candidate set. (For user id 0 or no user, the penalty and the
filter are skipped, per the counterexample.) -/
theorem C3_weighted_formula_nonzero_user (s : QuestionSelector) (used : List Int)
    (uid : Int) (h : uid ≠ 0) :
    weightedWeights s (some uid) (weightedCandidates s used (some uid)) =
      (weightedCandidates s used (some uid)).map (fun i =>
        max (((s.question_weights i).getD 1) *
          (1 / (1 + (s.global_question_usage i : ℚ) * (1/10))) *
          (if i ∈ s.user_question_history uid then 3/10 else 1)) (1/100)) ∧
    (∀ w ∈ weightedWeights s (some uid) (weightedCandidates s used (some uid)),
      (1/100 : ℚ) ≤ w ∧ 0 < w) ∧
    (availableIndices s.questions used ≠ [] →
      weightedCandidates s used (some uid) ≠ []) ∧
    ((s.user_question_history uid).length > 20 →
      (availableIndices s.questions used).filter
        (fun i => ¬(i ∈ takeLast 20 (s.user_question_history uid))) ≠ [] →
      ∀ i ∈ weightedCandidates s used (some uid),
        ¬(i ∈ takeLast 20 (s.user_question_history uid))) := by
  refine ⟨?_, ?_, ?_, ?_⟩
  · simp [weightedWeights, h]
  · intro w hw
    unfold weightedWeights at hw
    rcases List.mem_map.mp hw with ⟨i, _, hwi⟩
    have hle : (1/100 : ℚ) ≤ w := hwi ▸ le_max_right _ _
    exact ⟨hle, lt_of_lt_of_le (by norm_num) hle⟩
  · exact fun hne => weightedCandidates_ne_nil hne
  · intro hlen hfne i hi
    have hhist : s.user_question_history uid ≠ [] := by
      intro h0
      rw [h0] at hlen
      simp at hlen
    unfold weightedCandidates at hi
    simp only at hi
    rw [if_pos ⟨h, hhist⟩, if_pos hlen, if_pos hfne] at hi
    simpa using (List.mem_filter.mp hi).2

/-- Witness for the amended C3 at user 7 over the sample pool. -/
theorem C3_weighted_formula_nonzero_user_witness :
    (7 : Int) ≠ 0 ∧
    (weightedWeights sampleSelector (some 7) (weightedCandidates sampleSelector [] (some 7)) =
      (weightedCandidates sampleSelector [] (some 7)).map (fun i =>
        max (((sampleSelector.question_weights i).getD 1) *
          (1 / (1 + (sampleSelector.global_question_usage i : ℚ) * (1/10))) *
          (if i ∈ sampleSelector.user_question_history 7 then 3/10 else 1)) (1/100)) ∧
    (∀ w ∈ weightedWeights sampleSelector (some 7) (weightedCandidates sampleSelector [] (some 7)),
      (1/100 : ℚ) ≤ w ∧ 0 < w) ∧
    (availableIndices sampleSelector.questions [] ≠ [] →
      weightedCandidates sampleSelector [] (some 7) ≠ []) ∧
    ((sampleSelector.user_question_history 7).length > 20 →
      (availableIndices sampleSelector.questions []).filter
        (fun i => ¬(i ∈ takeLast 20 (sampleSelector.user_question_history 7))) ≠ [] →
      ∀ i ∈ weightedCandidates sampleSelector [] (some 7),
        ¬(i ∈ takeLast 20 (sampleSelector.user_question_history 7)))) :=
  ⟨by decide, C3_weighted_formula_nonzero_user sampleSelector [] 7 (by decide)⟩

/-- A running session for the session-manager witnesses: chat 5, poll `"p1"`
open, one participant. -/
def sampleQuizData : QuizData :=
  { current_question := sampleQuestions.getD 0 default
    question_count := 3
    max_questions := 10
    participants := [(7, ⟨"alice", 1, 2⟩)]
    start_time := 100
    used_questions := [0, 1]
    poll_id := some "p1"
    poll_message_id := some 55
    initiator_user_id := 7
    language := "ro" }

/-- Service state with one active session in chat 5. -/
def sampleService : QuizService :=
  { question_selector := sampleSelector
    active_quizzes := [(5, sampleQuizData)]
    user_performance_tracking := fun _ _ => []
    selection_strategy := "weighted_random" }

/-- C8: `start_quiz` on a chat that already has an active session returns the
failure sentinel and the whole service state — selector, the existing
session's question, sequence counter, used set and participants included —
is left exactly as it was. -/
theorem C8_start_on_active_chat_rejected (svc : QuizService)
    (chat_id user_id : Int) (username : String) (max_questions now : Int)
    (kcoin k₁ k₂ : Nat)
    (h : (alookup svc.active_quizzes chat_id).isSome) :
    start_quiz svc chat_id user_id username max_questions now kcoin k₁ k₂ =
      (svc, none) := by
  unfold start_quiz
  rw [if_pos h]

/-- Witness for C8: starting in chat 5 of `sampleService`, which already has
a session. -/
theorem C8_start_on_active_chat_rejected_witness :
    (alookup sampleService.active_quizzes 5).isSome ∧
    start_quiz sampleService 5 9 "bob" 10 200 0 0 0 = (sampleService, none) :=
  ⟨by decide, C8_start_on_active_chat_rejected sampleService 5 9 "bob" 10 200 0 0 0
    (by decide)⟩

/-- Service state whose only session is stored under chat id 0, with poll
`"p1"` open. -/
def zeroChatService : QuizService :=
  { question_selector := sampleSelector
    active_quizzes := [(0, sampleQuizData)]
    user_performance_tracking := fun _ _ => []
    selection_strategy := "weighted_random" }

/-- C10: when the session matching the poll reference is stored under chat
id 0, `process_poll_answer` returns the no-matching-session outcome and the
state is unchanged — the `if not chat_id` truthiness test cannot tell the
integer chat id 0 from "no session found". -/
theorem C10_zero_chat_id_answer_dropped (svc : QuizService) (poll_id : String)
    (user_id : Int) (username : String) (selected_options : List Int)
    (data : QuizData)
    (h : findPollChat svc poll_id = some (0, data)) :
    process_poll_answer svc poll_id user_id username selected_options =
      (svc, none) := by
  unfold process_poll_answer
  rw [h]
  simp

/-- Witness for C10: the poll `"p1"` matches the session stored under chat 0,
yet the answer is dropped and nothing is recorded. -/
theorem C10_zero_chat_id_answer_dropped_witness :
    findPollChat zeroChatService "p1" = some (0, sampleQuizData) ∧
    process_poll_answer zeroChatService "p1" 7 "alice" [0] =
      (zeroChatService, none) :=
  ⟨by rfl, C10_zero_chat_id_answer_dropped zeroChatService "p1" 7 "alice" [0]
    sampleQuizData (by rfl)⟩

section ServiceLemmas

theorem alookup_cons_eq {β : Type} {p : Int × β} {l : List (Int × β)} {k : Int}
    (h : p.1 = k) : alookup (p :: l) k = some p.2 := by
  unfold alookup
  rw [List.find?_cons_of_pos _ (by simpa using h)]
  rfl

theorem alookup_cons_ne {β : Type} {p : Int × β} {l : List (Int × β)} {k : Int}
    (h : p.1 ≠ k) : alookup (p :: l) k = alookup l k := by
  unfold alookup
  rw [List.find?_cons_of_neg _ (by simpa using h)]

theorem alookup_isSome_of_mem {β : Type} {l : List (Int × β)} {k : Int} {d : β}
    (h : (k, d) ∈ l) : (alookup l k).isSome := by
  induction l with
  | nil => simp at h
  | cons p l ih =>
    by_cases hp : p.1 = k
    · rw [alookup_cons_eq hp]
      rfl
    · rw [alookup_cons_ne hp]
      rcases List.mem_cons.mp h with h1 | h1
      · exact absurd (by rw [← h1]) hp
      · exact ih h1

theorem alookup_aset_self {β : Type} {l : List (Int × β)} {k : Int} (v : β)
    (h : (alookup l k).isSome) : alookup (aset l k v) k = some v := by
  induction l with
  | nil => simp [alookup] at h
  | cons p l ih =>
    by_cases hp : p.1 = k
    · simp only [aset, List.map_cons, if_pos hp]
      exact alookup_cons_eq rfl
    · rw [alookup_cons_ne hp] at h
      simp only [aset, List.map_cons, if_neg hp]
      rw [alookup_cons_ne hp]
      exact ih h

theorem alookup_append_single_isSome {β : Type} (l : List (Int × β)) (k : Int)
    (v : β) : (alookup (l ++ [(k, v)]) k).isSome := by
  induction l with
  | nil =>
    rw [List.nil_append, alookup_cons_eq rfl]
    rfl
  | cons p l ih =>
    by_cases hp : p.1 = k
    · rw [List.cons_append, alookup_cons_eq hp]
      rfl
    · rw [List.cons_append, alookup_cons_ne hp]
      exact ih

theorem trim20_eq_drop (l : List Bool) : trim20 l = l.drop (l.length - 20) := by
  unfold trim20 takeLast
  split
  · rfl
  · next h =>
    rw [Nat.sub_eq_zero_of_le (Nat.le_of_not_lt h), List.drop_zero]

theorem trim20_length_le (l : List Bool) : (trim20 l).length ≤ 20 := by
  unfold trim20 takeLast
  split
  · next h =>
    rw [List.length_drop]
    omega
  · next h =>
    omega

end ServiceLemmas

/-- C6: on a matched session (truthy chat id), `process_poll_answer` judges
correctness by comparing the first chosen option with the current question's
correct-answer index (no selection ⇒ incorrect), adds 1 to the participant's
score only when correct, always adds 1 to their answer count, stores the
latest username, and appends the correctness boolean to the user's
performance list for the question's difficulty, which is trimmed to its most
recent 20 entries (oldest dropped first) and never exceeds 20. -/
theorem C6_record_answer_scoring (svc : QuizService) (poll_id : String)
    (user_id : Int) (username : String) (selected_options : List Int)
    (cid : Int) (data : QuizData)
    (hfind : findPollChat svc poll_id = some (cid, data)) (hcid : cid ≠ 0) :
    ∃ svc' out,
      process_poll_answer svc poll_id user_id username selected_options =
        (svc', some out) ∧
      out.is_correct =
        decide (selected_options.head? = some data.current_question.correct_answer) ∧
      out.participant_data.username = username ∧
      out.participant_data.score =
        ((alookup data.participants user_id).getD ⟨username, 0, 0⟩).score +
          (if out.is_correct then 1 else 0) ∧
      out.participant_data.answers =
        ((alookup data.participants user_id).getD ⟨username, 0, 0⟩).answers + 1 ∧
      (∃ data', alookup svc'.active_quizzes cid = some data' ∧
        alookup data'.participants user_id = some out.participant_data) ∧
      svc'.user_performance_tracking user_id data.current_question.difficulty =
        (let l := svc.user_performance_tracking user_id
          data.current_question.difficulty ++ [out.is_correct]
        l.drop (l.length - 20)) ∧
      (∀ d, (svc'.user_performance_tracking user_id d).length ≤ 20) := by
  have hmem : (cid, data) ∈ svc.active_quizzes :=
    List.mem_of_find?_eq_some hfind
  unfold process_poll_answer
  rw [hfind]
  dsimp only
  rw [if_neg hcid]
  refine ⟨_, _, rfl, ?_, rfl, rfl, rfl, ?_, ?_, ?_⟩
  · cases selected_options <;> simp
  · refine ⟨_, alookup_aset_self _ (alookup_isSome_of_mem hmem), ?_⟩
    show alookup (aset (if (alookup data.participants user_id).isSome = true
      then data.participants
      else data.participants ++ [(user_id, ⟨username, 0, 0⟩)]) user_id _) user_id = _
    apply alookup_aset_self
    split
    · assumption
    · exact alookup_append_single_isSome _ _ _
  · show update_user_performance svc.user_performance_tracking user_id
      data.current_question _ user_id data.current_question.difficulty = _
    unfold update_user_performance
    rw [if_pos rfl, if_pos rfl, trim20_eq_drop]
  · intro d
    show (update_user_performance svc.user_performance_tracking user_id
      data.current_question _ user_id d).length ≤ 20
    unfold update_user_performance
    rw [if_pos rfl]
    exact trim20_length_le _

/-- Witness for C6: user 7 (already a participant with score 1 and 2
answers) answers poll `"p1"` in chat 5 with the correct option 0. -/
theorem C6_record_answer_scoring_witness :
    findPollChat sampleService "p1" = some (5, sampleQuizData) ∧
    (5 : Int) ≠ 0 ∧
    (∃ svc' out,
      process_poll_answer sampleService "p1" 7 "al" [0] = (svc', some out) ∧
      out.is_correct =
        decide (([0] : List Int).head? = some sampleQuizData.current_question.correct_answer) ∧
      out.participant_data.username = "al" ∧
      out.participant_data.score =
        ((alookup sampleQuizData.participants 7).getD ⟨"al", 0, 0⟩).score +
          (if out.is_correct then 1 else 0) ∧
      out.participant_data.answers =
        ((alookup sampleQuizData.participants 7).getD ⟨"al", 0, 0⟩).answers + 1 ∧
      (∃ data', alookup svc'.active_quizzes 5 = some data' ∧
        alookup data'.participants 7 = some out.participant_data) ∧
      svc'.user_performance_tracking 7 sampleQuizData.current_question.difficulty =
        (let l := sampleService.user_performance_tracking 7
          sampleQuizData.current_question.difficulty ++ [out.is_correct]
        l.drop (l.length - 20)) ∧
      (∀ d, (svc'.user_performance_tracking 7 d).length ≤ 20)) :=
  ⟨by rfl, by decide,
    C6_record_answer_scoring sampleService "p1" 7 "al" [0] 5 sampleQuizData
      (by rfl) (by decide)⟩

section SortLemmas

theorem insertDesc_perm (x : Int × Participant) (l : List (Int × Participant)) :
    (insertDesc x l).Perm (x :: l) := by
  induction l with
  | nil => exact List.Perm.refl _
  | cons y ys ih =>
    unfold insertDesc
    split
    · exact List.Perm.refl _
    · exact (List.Perm.cons y ih).trans (List.Perm.swap x y ys)

theorem sortDescByScore_perm (l : List (Int × Participant)) :
    (sortDescByScore l).Perm l := by
  induction l with
  | nil => exact List.Perm.refl _
  | cons x xs ih =>
    exact (insertDesc_perm x (sortDescByScore xs)).trans (List.Perm.cons x ih)

theorem insertDesc_pairwise (x : Int × Participant)
    {l : List (Int × Participant)}
    (hl : l.Pairwise (fun a b => b.2.score ≤ a.2.score)) :
    (insertDesc x l).Pairwise (fun a b => b.2.score ≤ a.2.score) := by
  induction l with
  | nil => simp [insertDesc]
  | cons y ys ih =>
    rcases List.pairwise_cons.mp hl with ⟨hy, hys⟩
    unfold insertDesc
    split
    · next hxy =>
      refine List.pairwise_cons.mpr ⟨?_, hl⟩
      intro b hb
      rcases List.mem_cons.mp hb with rfl | hb
      · exact hxy
      · exact le_trans (hy b hb) hxy
    · next hxy =>
      refine List.pairwise_cons.mpr ⟨?_, ih hys⟩
      intro b hb
      have hb' : b ∈ x :: ys := (insertDesc_perm x ys).mem_iff.mp hb
      rcases List.mem_cons.mp hb' with rfl | hb2
      · exact Nat.le_of_not_le hxy
      · exact hy b hb2

theorem sortDescByScore_pairwise (l : List (Int × Participant)) :
    (sortDescByScore l).Pairwise (fun a b => b.2.score ≤ a.2.score) := by
  induction l with
  | nil => simp [sortDescByScore]
  | cons x xs ih => exact insertDesc_pairwise x ih

/-- Stability of the insertion step on a sorted suffix: the earlier element
`x` lands in front of every equal-scored later element. -/
theorem insertDesc_filter_score (x : Int × Participant)
    {l : List (Int × Participant)} (n : Nat)
    (hl : l.Pairwise (fun a b => b.2.score ≤ a.2.score)) :
    (insertDesc x l).filter (fun a => a.2.score = n) =
      if x.2.score = n then x :: l.filter (fun a => a.2.score = n)
      else l.filter (fun a => a.2.score = n) := by
  induction l with
  | nil =>
    by_cases hx : x.2.score = n <;> simp [insertDesc, List.filter, hx]
  | cons y ys ih =>
    rcases List.pairwise_cons.mp hl with ⟨hy, hys⟩
    unfold insertDesc
    split
    · next hxy =>
      by_cases hx : x.2.score = n <;> simp [List.filter_cons, hx]
    · next hxy =>
      simp only [List.filter_cons, ih hys]
      by_cases hx : x.2.score = n
      · have hyn : y.2.score ≠ n := by
          have := Nat.lt_of_not_le hxy
          omega
        simp [hx, hyn]
      · by_cases hy2 : y.2.score = n <;> simp [hx, hy2]

/-- Full stability: the descending stable sort preserves the relative order
of equal-scored participants. -/
theorem sortDescByScore_filter_score (l : List (Int × Participant)) (n : Nat) :
    (sortDescByScore l).filter (fun a => a.2.score = n) =
      l.filter (fun a => a.2.score = n) := by
  induction l with
  | nil => rfl
  | cons x xs ih =>
    show (insertDesc x (sortDescByScore xs)).filter _ = _
    rw [insertDesc_filter_score x n (sortDescByScore_pairwise xs)]
    by_cases hx : x.2.score = n <;> simp [List.filter_cons, hx, ih]

end SortLemmas

/-- C9: on an active session, `get_quiz_results` returns the participants in
descending score order with the stable (arrival-order) tie-break — stated as
a permutation, pairwise descending scores, and score-class order
preservation — plus the participant count, questions asked
(`question_count - 1`), start time and elapsed duration; with zero
participants it returns the empty list and count 0 rather than an error. -/
theorem C9_results_sorted_and_counted (svc : QuizService) (chat_id now : Int)
    (data : QuizData)
    (h : alookup svc.active_quizzes chat_id = some data) :
    ∃ r, get_quiz_results svc chat_id now = some r ∧
      (data.participants = [] →
        r.participants = [] ∧ r.total_participants = 0) ∧
      (data.participants ≠ [] →
        r.participants.Perm data.participants ∧
        r.participants.Pairwise (fun a b => b.2.score ≤ a.2.score) ∧
        (∀ n : Nat, r.participants.filter (fun a => a.2.score = n) =
          data.participants.filter (fun a => a.2.score = n)) ∧
        r.total_participants = data.participants.length ∧
        r.total_questions = some (data.question_count - 1) ∧
        r.start_time = some data.start_time ∧
        r.duration = some (now - data.start_time)) := by
  unfold get_quiz_results
  rw [h]
  dsimp only
  by_cases hp : data.participants = []
  · rw [if_pos hp]
    exact ⟨_, rfl, fun _ => ⟨rfl, rfl⟩, fun hne => absurd hp hne⟩
  · rw [if_neg hp]
    refine ⟨_, rfl, fun he => absurd he hp, fun _ => ?_⟩
    exact ⟨sortDescByScore_perm _, sortDescByScore_pairwise _,
      fun n => sortDescByScore_filter_score _ n, rfl, rfl, rfl, rfl⟩

/-- Session with three participants, two of them tied on score, for the C9
witness. -/
def resultsQuizData : QuizData :=
  { current_question := sampleQuestions.getD 0 default
    question_count := 4
    max_questions := 10
    participants := [(1, ⟨"ann", 2, 3⟩), (2, ⟨"bob", 5, 5⟩), (3, ⟨"cat", 2, 4⟩)]
    start_time := 50
    used_questions := [0]
    poll_id := none
    poll_message_id := none
    initiator_user_id := 1
    language := "ro" }

/-- Service state with the tied-score session in chat 9. -/
def resultsService : QuizService :=
  { question_selector := sampleSelector
    active_quizzes := [(9, resultsQuizData)]
    user_performance_tracking := fun _ _ => []
    selection_strategy := "weighted_random" }

/-- Witness for C9 in chat 9 at time 120: three participants, scores 2, 5, 2,
so the sort must order bob first and keep ann before cat. -/
theorem C9_results_sorted_and_counted_witness :
    alookup resultsService.active_quizzes 9 = some resultsQuizData ∧
    (∃ r, get_quiz_results resultsService 9 120 = some r ∧
      (resultsQuizData.participants = [] →
        r.participants = [] ∧ r.total_participants = 0) ∧
      (resultsQuizData.participants ≠ [] →
        r.participants.Perm resultsQuizData.participants ∧
        r.participants.Pairwise (fun a b => b.2.score ≤ a.2.score) ∧
        (∀ n : Nat, r.participants.filter (fun a => a.2.score = n) =
          resultsQuizData.participants.filter (fun a => a.2.score = n)) ∧
        r.total_participants = resultsQuizData.participants.length ∧
        r.total_questions = some (resultsQuizData.question_count - 1) ∧
        r.start_time = some resultsQuizData.start_time ∧
        r.duration = some (120 - resultsQuizData.start_time))) :=
  ⟨by rfl, C9_results_sorted_and_counted resultsService 9 120 resultsQuizData (by rfl)⟩
